import Mathlib

/-!
Shallow embedding of `src/audit.js` (Solana program/transaction risk auditor).

The source interleaves RPC calls with rule evaluation.  We model the RPC
connection as a record of call results: each collaborator call is an
`Except String α` (`.error e` models the call throwing with message `e`).
JS numbers holding integer values (byte lengths, lamports, epochs, block
times, risk scores) are modelled as `Nat`/`Int` (exact for magnitudes
below 2⁵³, which covers every value this audit can meet); the one
fractional computation (`txFrequency`) is modelled by correctly rounded
binary64 arithmetic: `flDiv` divides two positive integers and rounds to
53 significant bits, round-to-nearest ties-to-even, and the IEEE special
cases (division by zero yielding Infinity/NaN) are spelled out by sign
analysis, see `txFrequencyGt100`.
-/

namespace Rob3

/-- Result of `connection.getAccountInfo`: the fields of the account that
`auditProgram` reads. -/
structure AccountInfo where
  dataLength : Nat
  executable : Bool
  rentEpoch : Int
deriving Repr, DecidableEq

/-- The fields of `transaction.meta` that `auditTransaction` reads.
`err` is the truthiness of `meta.err`; the balance lists and log list are
optional, mirroring the `?.` chains in the source. -/
structure TxMeta where
  preBalances : Option (List Int)
  postBalances : Option (List Int)
  err : Bool
  logMessages : Option (List String)
deriving Repr, DecidableEq

/-- The fields of a `connection.getTransaction` record that
`auditTransaction` reads.  `instructionsLength` models
`transaction.transaction?.message?.instructions?.length` (`none` when the
optional chain yields `undefined`), `signaturesLength` models
`transaction.transaction?.signatures?.length`. -/
structure TxRecord where
  instructionsLength : Option Nat
  signaturesLength : Option Nat
  meta : Option TxMeta
deriving Repr, DecidableEq

/-- The shared `connection` object: one slot per RPC call the audit makes.
`.error e` models the call rejecting (network/RPC failure) with message
`e`.  `getAccountInfo = .ok none` models a well-formed reply for an
account that does not exist (`null` in JS). -/
structure Conn where
  getAccountInfo : Except String (Option AccountInfo)
  getSlot : Except String Nat
  getBlockTime : Nat → Except String Int
  getSignaturesLen : Except String Nat
  getBalance : Except String Nat
  getTransaction : Except String (Option TxRecord)

/-- `const TOTAL_RISK_SCORE = 10`. -/
def TOTAL_RISK_SCORE : Nat := 10

/-- `getProgramInfo`: returns the account info, but catches any failure of
the underlying call and returns `null` (`none`) in that case. -/
def getProgramInfo (c : Conn) : Option AccountInfo :=
  match c.getAccountInfo with
  | .error _ => none
  | .ok r => r

/-- `toScorePct`: `Math.round(((10 - riskScore) / 10) * 100).toString()`.
For an integer `riskScore` the float expression rounds to the exact
integer `(10 - riskScore) * 10` (the intermediate doubles are within half
an ulp of it), so we embed it as that integer rendered in decimal.  Note
there is no clamping in the source: `riskScore > 10` yields a negative
string such as `"-20"`. -/
def toScorePct (riskScore : Nat) : String :=
  toString (((TOTAL_RISK_SCORE : Int) - (riskScore : Int)) * 10)

/-- The numeric value of the trust score before `toString`. -/
def trustScoreVal (riskScore : Nat) : Int :=
  ((TOTAL_RISK_SCORE : Int) - (riskScore : Int)) * 10

/-- `getRiskLevel`. -/
def getRiskLevel (riskScore : Nat) : String :=
  if riskScore > 7 then "High Risk"
  else if riskScore > 4 then "Moderate Risk"
  else if riskScore > 2 then "Low Risk"
  else "Very Low Risk"

/-- `getRiskDesc`. -/
def getRiskDesc (riskScore : Nat) : String :=
  if riskScore > 7 then "Careful review strongly recommended."
  else if riskScore > 4 then "Further review recommended."
  else if riskScore > 2 then "Not many issues, but exercise caution."
  else "Seems safe, but always verify."

/-- Round `N / D` to the nearest integer, ties to even — the rounding of
IEEE round-to-nearest applied to a scaled significand. -/
def rneNat (N D : ℕ) : ℕ :=
  let q := N / D
  let r := N % D
  if 2 * r < D then q
  else if D < 2 * r then q + 1
  else if q % 2 = 0 then q else q + 1

/-- `Nat.log2` with an explicit fuel argument, so that it is structurally
recursive and reduces inside the kernel (core `Nat.log2` is defined by
well-founded recursion, which does not). -/
def log2Aux : ℕ → ℕ → ℕ
  | 0, _ => 0
  | fuel + 1, n => if 2 ≤ n then log2Aux fuel (n / 2) + 1 else 0

/-- `⌊log₂ n⌋` (0 for `n = 0`), kernel-reducible; agrees with `Nat.log2`
(`log2N_eq`). -/
def log2N (n : ℕ) : ℕ := log2Aux n n

/-- The binade exponent `⌊log₂ (n / d)⌋` of a positive fraction. -/
def ilog2F (n d : ℕ) : ℤ :=
  let k : ℤ := (log2N n : ℤ) - (log2N d : ℤ)
  let belowK : Bool :=
    if 0 ≤ k then decide (n < d * 2 ^ k.toNat) else decide (n * 2 ^ (-k).toNat < d)
  if belowK then k - 1 else k

/-- IEEE binary64 division of two positive integers, as a dyadic pair: the
result is `m·2^(e−52)` where `e = ⌊log₂ (n/d)⌋` and `m` is `(n/d)·2^(52−e)`
(a value in `[2⁵², 2⁵³)`) rounded to the nearest integer, ties to even.
Exponents are unbounded (no overflow or subnormal handling — exact for
every magnitude this audit can produce). -/
def flDiv (n d : ℕ) : ℕ × ℤ :=
  let e := ilog2F n d
  let m := if 0 ≤ 52 - e then rneNat (n * 2 ^ (52 - e).toNat) d
    else rneNat n (d * 2 ^ (e - 52).toNat)
  (m, e)

/-- The rational value `m·2^(e−52)` of a dyadic pair (proof-level only). -/
def dval (p : ℕ × ℤ) : ℚ := (p.1 : ℚ) * 2 ^ (p.2 - 52)

/-- Decides `m·2^s > 100` by integer comparison. -/
def dyadicGtHundred (m : ℕ) (s : ℤ) : Bool :=
  if 0 ≤ s then decide (100 < m * 2 ^ s.toNat) else decide (100 * 2 ^ (-s).toNat < m)

/-- `txFrequency > 100` where
`txFrequency = recentSignatures.length / (programAge / 86400)` in IEEE
binary64 doubles.  For positive age both divisions are performed by the
correctly rounded `flDiv` (the second divides `count` by the first's
significand and shifts exponents, which is exact); the rounding matters at
points whose exact quotient is exactly 100, where the doubles decide the
strict comparison (e.g. the rule fires at count 57, age 49248 —
`49248/86400` rounds just below `0.57` and `57` divided by that gives
`100.00000000000001` — while at count 1000, age 864000 both divisions are
exact and it does not fire).  A zero count gives `+0` divided by a
positive number, which is `+0`, never `> 100`.  For `programAge = 0` the
JS quotient is `+Infinity` when `count > 0` (fires) and `NaN` when
`count = 0` (does not fire); for `programAge < 0` the quotient is
non-positive (or `NaN`), never `> 100`; these cases are transcribed by
sign analysis since the dyadic pairs carry no infinities. -/
def txFrequencyGt100 (count : Nat) (programAge : Int) : Bool :=
  if 0 < programAge then
    if count = 0 then false
    else
      let p1 := flDiv programAge.toNat 86400
      let p2 := flDiv count p1.1
      dyadicGtHundred p2.1 (p2.2 - p1.2)
  else if programAge = 0 then decide (0 < count)
  else false

/-- `auditProgram`.  Rules run in source order; the `try/catch` around the
body is modelled by the `.error` branches: the first failing call sets
`riskScore = 10` and appends `'Error auditing program: ' + e` after the
warnings already pushed, and no later rule runs.  A failure of the
account fetch itself is absorbed by `getProgramInfo` into `none` and hence
takes the "Program not found" path. -/
def auditProgram (c : Conn) : Nat × List String :=
  match getProgramInfo c with
  | none => (10, ["Program not found"])
  | some info =>
    let acc : Nat × List String := (0, [])
    let acc := if info.dataLength < 100 then
        (acc.1 + 2, acc.2 ++ ["Very small program size"]) else acc
    let acc := if !info.executable then
        (acc.1 + 3, acc.2 ++ ["Program is not executable"]) else acc
    match c.getSlot with
    | .error e => (10, acc.2 ++ ["Error auditing program: " ++ e])
    | .ok slot =>
      match c.getBlockTime slot with
      | .error e => (10, acc.2 ++ ["Error auditing program: " ++ e])
      | .ok blockTime =>
        let programAge : Int := blockTime - info.rentEpoch
        let acc := if programAge < 86400 then
            (acc.1 + 2, acc.2 ++ ["Very recent program"]) else acc
        match c.getSignaturesLen with
        | .error e => (10, acc.2 ++ ["Error auditing program: " ++ e])
        | .ok sigCount =>
          let acc := if txFrequencyGt100 sigCount programAge then
              (acc.1 + 1, acc.2 ++ ["High transaction frequency"]) else acc
          match c.getBalance with
          | .error e => (10, acc.2 ++ ["Error auditing program: " ++ e])
          | .ok balance =>
            let acc := if 1000 * 1000000000 < balance then
                (acc.1 + 2, acc.2 ++ ["Very high program balance"]) else acc
            acc

/-- JS `String.prototype.includes` on explicit character lists:
`isPrefixChars p s` is `p` being an initial segment of `s`. -/
def isPrefixChars : List Char → List Char → Bool
  | [], _ => true
  | _ :: _, [] => false
  | a :: as, b :: bs => a == b && isPrefixChars as bs

/-- `containsChars p s`: some suffix of `s` starts with `p`. -/
def containsChars (pat : List Char) : List Char → Bool
  | [] => pat.isEmpty
  | b :: bs => isPrefixChars pat (b :: bs) || containsChars pat bs

/-- `s.includes(pat)` (case-sensitive substring test). -/
def strIncludes (s pat : String) : Bool :=
  containsChars pat.toList s.toList

/-- The per-log predicate of the suspicious-log rule:
`log.includes('error') || log.includes('failed') || log.includes('invalid')`. -/
def suspiciousLog (log : String) : Bool :=
  strIncludes log "error" || strIncludes log "failed" || strIncludes log "invalid"

/-- `postBalances.map((post, index) => post - (preBalances[index] || 0))`.
JS `Array.map` with index, written over the index range; `pre[index] || 0`
is `List.getD`: an out-of-range index gives `undefined || 0 = 0`, and a
stored `0` also gives `0`, so the two agree on all integer entries. -/
def balanceChanges (post pre : List Int) : List Int :=
  (List.range post.length).map (fun i => post.getD i 0 - pre.getD i 0)

/-- `balanceChanges.filter((change) => Math.abs(change) > 100 * 1e9).length > 0`. -/
def balanceShiftFires (post pre : List Int) : Bool :=
  decide (0 < ((balanceChanges post pre).filter
    (fun change => decide (100000000000 < change.natAbs))).length)

/-- Condition of transaction rule 1:
`instructionsLength && instructionsLength > 5` (the `n ≠ 0` conjunct is
the JS truthiness guard on the count). -/
def txManyInstr (t : TxRecord) : Bool :=
  match t.instructionsLength with
  | some n => decide (n ≠ 0 ∧ 5 < n)
  | none => false

/-- Condition of transaction rule 2:
`signaturesLength && signaturesLength > 1`. -/
def txMultiSigners (t : TxRecord) : Bool :=
  match t.signaturesLength with
  | some n => decide (n ≠ 0 ∧ 1 < n)
  | none => false

/-- Condition of transaction rule 4: both balance lists present (an empty
JS array is truthy, so presence, not non-emptiness) and some large
balance change. -/
def txLargeShift (t : TxRecord) : Bool :=
  match t.meta with
  | some m =>
    match m.postBalances, m.preBalances with
    | some post, some pre => balanceShiftFires post pre
    | _, _ => false
  | none => false

/-- Condition of transaction rule 5: `transaction.meta?.err` truthy. -/
def txSimFailed (t : TxRecord) : Bool :=
  match t.meta with
  | some m => m.err
  | none => false

/-- Condition of transaction rule 6: `transaction.meta?.logMessages`
present and some entry suspicious. -/
def txSuspiciousLogs (t : TxRecord) : Bool :=
  match t.meta with
  | some m =>
    match m.logMessages with
    | some logs => decide (0 < (logs.filter suspiciousLog).length)
    | none => false
  | none => false

/-- `auditTransaction`.  As in `auditProgram`, the `try/catch` is modelled
by the `.error` branch of `getTransaction` (the only call inside the
`try`); rules run in source order, each guarded by its transcribed
condition. -/
def auditTransaction (c : Conn) : Nat × List String :=
  match c.getTransaction with
  | .error e => (10, ["Error processing transaction: " ++ e])
  | .ok none => (10, ["Transaction not found"])
  | .ok (some t) =>
    let acc : Nat × List String := (0, [])
    let acc := if txManyInstr t then
        (acc.1 + 2, acc.2 ++ ["Transaction with many instructions"]) else acc
    let acc := if txMultiSigners t then
        (acc.1 + 2, acc.2 ++ ["Transaction with multiple signers"]) else acc
    let acc := if txLargeShift t then
        (acc.1 + 3, acc.2 ++ ["Transaction with large balance shifts"]) else acc
    let acc := if txSimFailed t then
        (acc.1 + 3, acc.2 ++ ["Transaction simulation failed"]) else acc
    let acc := if txSuspiciousLogs t then
        (acc.1 + 2, acc.2 ++ ["Suspicious log messages detected"]) else acc
    acc

/-- The result record assembled by `audit`. -/
structure AuditResult where
  id : String
  trustScore : String
  riskLevel : String
  riskDesc : String
  warnings : List String
deriving Repr, DecidableEq

/-- The record returned by `audit`'s own `catch` clause when the body
throws; for an invalid audit type the thrown message is
`Invalid audit type. Use "program" or "transaction".` and the warning is
`'Audit failed: ' + error.message`. -/
def invalidTypeResult (input : String) : AuditResult :=
  { id := input
    trustScore := "0"
    riskLevel := "High Risk"
    riskDesc := "Error occurred during audit"
    warnings := ["Audit failed: Invalid audit type. Use \"program\" or \"transaction\"."] }

/-- `audit(type, input)`.  The two recognised types dispatch to the
engines (which, in the model as in the source, handle their own failures
and return normally); any other type throws inside `audit`'s `try` and is
caught by its own `catch`, producing `invalidTypeResult`. -/
def audit (c : Conn) (type input : String) : AuditResult :=
  if type = "program" then
    let r := auditProgram c
    { id := input
      trustScore := toScorePct r.1
      riskLevel := getRiskLevel r.1
      riskDesc := getRiskDesc r.1
      warnings := r.2 }
  else if type = "transaction" then
    let r := auditTransaction c
    { id := input
      trustScore := toScorePct r.1
      riskLevel := getRiskLevel r.1
      riskDesc := getRiskDesc r.1
      warnings := r.2 }
  else
    invalidTypeResult input

/-- A pre-fetched program evidence bundle (the spec's `ProgramEvidence`):
the values the collaborator calls return on a run where every call
succeeds.  `account = none` is `exists = false`. -/
structure ProgramEvidence where
  account : Option AccountInfo
  slot : Nat
  blockTime : Int
  sigCount : Nat
  balance : Nat
deriving Repr, DecidableEq

/-- The connection whose calls all succeed with the bundle's values. -/
def ProgramEvidence.toConn (ev : ProgramEvidence) : Conn :=
  { getAccountInfo := .ok ev.account
    getSlot := .ok ev.slot
    getBlockTime := fun _ => .ok ev.blockTime
    getSignaturesLen := .ok ev.sigCount
    getBalance := .ok ev.balance
    getTransaction := .ok none }

/-- The connection whose `getTransaction` succeeds with `t` (a transaction
evidence bundle; `none` is `found = false`). -/
def txConnOf (t : Option TxRecord) : Conn :=
  { getAccountInfo := .ok none
    getSlot := .ok 0
    getBlockTime := fun _ => .ok 0
    getSignaturesLen := .ok 0
    getBalance := .ok 0
    getTransaction := .ok t }

/-- Cumulative risk score of a program evidence bundle. -/
def scoreP (ev : ProgramEvidence) : Nat := (auditProgram ev.toConn).1

/-- Cumulative risk score of a transaction evidence bundle. -/
def scoreT (t : Option TxRecord) : Nat := (auditTransaction (txConnOf t)).1

/-- The six program rules, in evaluation order. -/
inductive PRule
  | notFound | size | exec | age | freq | balance
deriving DecidableEq, Repr

/-- Whether a program rule fires during evaluation of a bundle: the
not-found rule fires on a missing account; every other rule is only
reached (and so can only fire) when the account exists, because of the
short-circuit return. -/
def firesP (ev : ProgramEvidence) : PRule → Bool
  | .notFound => ev.account.isNone
  | .size =>
    match ev.account with
    | some info => decide (info.dataLength < 100)
    | none => false
  | .exec =>
    match ev.account with
    | some info => !info.executable
    | none => false
  | .age =>
    match ev.account with
    | some info => decide (ev.blockTime - info.rentEpoch < 86400)
    | none => false
  | .freq =>
    match ev.account with
    | some info => txFrequencyGt100 ev.sigCount (ev.blockTime - info.rentEpoch)
    | none => false
  | .balance =>
    match ev.account with
    | some _ => decide (1000 * 1000000000 < ev.balance)
    | none => false

/-- The six transaction rules, in evaluation order (the commented-out
known-programs rule of the source is omitted, as it never executes). -/
inductive TRule
  | notFound | instr | signers | shift | err | logs
deriving DecidableEq, Repr

/-- Whether a transaction rule fires during evaluation of a bundle. -/
def firesT (t : Option TxRecord) : TRule → Bool
  | .notFound => t.isNone
  | .instr =>
    match t with
    | some r => txManyInstr r
    | none => false
  | .signers =>
    match t with
    | some r => txMultiSigners r
    | none => false
  | .shift =>
    match t with
    | some r => txLargeShift r
    | none => false
  | .err =>
    match t with
    | some r => txSimFailed r
    | none => false
  | .logs =>
    match t with
    | some r => txSuspiciousLogs r
    | none => false

/-- The spec's guarded frequency formula (§4.1 rule 5),
`recentSignatureCount / max(age_in_days, epsilon)`, written for comparison
with the code's unguarded computation; the spec leaves epsilon
unspecified, a representative positive value of 10⁻⁹ is used. -/
def txFrequencySpecGuarded (count : Nat) (ageSeconds : Int) : ℚ :=
  (count : ℚ) / max ((ageSeconds : ℚ) / 86400) (1 / 1000000000)

/-- A healthy, unremarkable account. -/
def okInfo : AccountInfo := { dataLength := 2000, executable := true, rentEpoch := 0 }

/-- Transaction evidence firing all five non-short-circuit rules
(6 instructions, 2 signers, a 2·10¹¹ lamport balance shift, an execution
error, a suspicious log): cumulative weight 2+2+3+3+2 = 12. -/
def txAll : TxRecord :=
  { instructionsLength := some 6
    signaturesLength := some 2
    meta := some
      { preBalances := some [0]
        postBalances := some [200000000000]
        err := true
        logMessages := some ["error: overflow"] } }

/-- Transaction evidence firing no rule. -/
def txQuiet : TxRecord :=
  { instructionsLength := none, signaturesLength := none, meta := none }

/-- Transaction evidence with balance lists of unequal length (two post
entries, one pre entry) whose first delta is large. -/
def txShift : TxRecord :=
  { instructionsLength := none
    signaturesLength := none
    meta := some
      { preBalances := some [0]
        postBalances := some [200000000000, 5]
        err := false
        logMessages := none } }

/-- A connection whose account fetch itself fails. -/
def failConn : Conn :=
  { getAccountInfo := .error "network down"
    getSlot := .ok 1
    getBlockTime := fun _ => .ok 0
    getSignaturesLen := .ok 0
    getBalance := .ok 0
    getTransaction := .ok none }

/-- A connection for an existing healthy account with a very high balance,
whose clock source (`getSlot`) is unavailable. -/
def clockFailConn : Conn :=
  { getAccountInfo := .ok (some okInfo)
    getSlot := .error "clock unavailable"
    getBlockTime := fun _ => .ok 0
    getSignaturesLen := .ok 1000
    getBalance := .ok 2000000000000
    getTransaction := .ok none }

/-- The same evidence as `clockFailConn` but with working clock sources. -/
def clockOkConn : Conn :=
  { getAccountInfo := .ok (some okInfo)
    getSlot := .ok 1
    getBlockTime := fun _ => .ok 1700000000
    getSignaturesLen := .ok 1000
    getBalance := .ok 2000000000000
    getTransaction := .ok none }

/-- A connection for an existing account whose derived age is negative
(`blockTime 0`, `rentEpoch 86400`) with many recent signatures. -/
def negAgeConn : Conn :=
  { getAccountInfo := .ok (some { dataLength := 2000, executable := true, rentEpoch := 86400 })
    getSlot := .ok 0
    getBlockTime := fun _ => .ok 0
    getSignaturesLen := .ok 1000
    getBalance := .ok 0
    getTransaction := .ok none }

/-- The spec's end-to-end example 1 bundle: small data, executable,
age 200000 s, 10 signatures, 5·10⁹ lamports; only the size rule fires. -/
def ev1 : ProgramEvidence :=
  { account := some { dataLength := 50, executable := true, rentEpoch := 0 }
    slot := 1
    blockTime := 200000
    sigCount := 10
    balance := 5000000000 }

/-- Like `ev1` but also not executable: fires a superset of `ev1`'s rules. -/
def evB : ProgramEvidence :=
  { account := some { dataLength := 50, executable := false, rentEpoch := 0 }
    slot := 1
    blockTime := 200000
    sigCount := 10
    balance := 5000000000 }

lemma scoreP_none (ev : ProgramEvidence) (h : ev.account = none) : scoreP ev = 10 := by
  simp [scoreP, auditProgram, getProgramInfo, ProgramEvidence.toConn, h]

lemma scoreP_some (ev : ProgramEvidence) (info : AccountInfo) (h : ev.account = some info) :
    scoreP ev =
      (if firesP ev .size then 2 else 0) + (if firesP ev .exec then 3 else 0) +
      (if firesP ev .age then 2 else 0) + (if firesP ev .freq then 1 else 0) +
      (if firesP ev .balance then 2 else 0) := by
  simp only [scoreP, auditProgram, getProgramInfo, ProgramEvidence.toConn, h, firesP,
    decide_eq_true_eq]
  split_ifs <;> simp_all

lemma scoreT_none : scoreT none = 10 := by
  simp [scoreT, auditTransaction, txConnOf]

lemma scoreT_some (t : TxRecord) :
    scoreT (some t) =
      (if firesT (some t) .instr then 2 else 0) + (if firesT (some t) .signers then 2 else 0) +
      (if firesT (some t) .shift then 3 else 0) + (if firesT (some t) .err then 3 else 0) +
      (if firesT (some t) .logs then 2 else 0) := by
  simp only [scoreT, auditTransaction, txConnOf, firesT]
  split_ifs <;> rfl

lemma scoreP_le_ten (ev : ProgramEvidence) : scoreP ev ≤ 10 := by
  cases h : ev.account with
  | none => rw [scoreP_none ev h]
  | some info => rw [scoreP_some ev info h]; split_ifs <;> omega

lemma scoreP_mono (A B : ProgramEvidence)
    (h : ∀ r, firesP A r = true → firesP B r = true) : scoreP A ≤ scoreP B := by
  cases hA : A.account with
  | none =>
    have hB : B.account = none := by
      have hnf := h .notFound
      simp [firesP, hA] at hnf
      simpa [Option.isNone_iff_eq_none] using hnf
    rw [scoreP_none A hA, scoreP_none B hB]
  | some iA =>
    cases hB : B.account with
    | none => rw [scoreP_none B hB]; exact scoreP_le_ten A
    | some iB =>
      rw [scoreP_some A iA hA, scoreP_some B iB hB]
      have h1 := h .size
      have h2 := h .exec
      have h3 := h .age
      have h4 := h .freq
      have h5 := h .balance
      have k1 : (if firesP A .size then 2 else 0) ≤ (if firesP B .size then (2 : Nat) else 0) := by
        split_ifs with hx hy <;> first | omega | exact absurd (h1 hx) hy
      have k2 : (if firesP A .exec then 3 else 0) ≤ (if firesP B .exec then (3 : Nat) else 0) := by
        split_ifs with hx hy <;> first | omega | exact absurd (h2 hx) hy
      have k3 : (if firesP A .age then 2 else 0) ≤ (if firesP B .age then (2 : Nat) else 0) := by
        split_ifs with hx hy <;> first | omega | exact absurd (h3 hx) hy
      have k4 : (if firesP A .freq then 1 else 0) ≤ (if firesP B .freq then (1 : Nat) else 0) := by
        split_ifs with hx hy <;> first | omega | exact absurd (h4 hx) hy
      have k5 : (if firesP A .balance then 2 else 0) ≤ (if firesP B .balance then (2 : Nat) else 0) := by
        split_ifs with hx hy <;> first | omega | exact absurd (h5 hx) hy
      omega

lemma scoreT_mono (a b : Option TxRecord)
    (h : ∀ r, firesT a r = true → firesT b r = true) : scoreT a ≤ scoreT b := by
  cases a with
  | none =>
    have hb : b = none := by
      have hnf := h .notFound
      simp [firesT] at hnf
      simpa [Option.isNone_iff_eq_none] using hnf
    rw [hb]
  | some ta =>
    cases b with
    | none =>
      rw [scoreT_none, scoreT_some ta]
      have e1 : firesT (some ta) .instr = false := by
        cases hc : firesT (some ta) .instr
        · rfl
        · exact absurd (h .instr hc) (by simp [firesT])
      have e2 : firesT (some ta) .signers = false := by
        cases hc : firesT (some ta) .signers
        · rfl
        · exact absurd (h .signers hc) (by simp [firesT])
      have e3 : firesT (some ta) .shift = false := by
        cases hc : firesT (some ta) .shift
        · rfl
        · exact absurd (h .shift hc) (by simp [firesT])
      have e4 : firesT (some ta) .err = false := by
        cases hc : firesT (some ta) .err
        · rfl
        · exact absurd (h .err hc) (by simp [firesT])
      have e5 : firesT (some ta) .logs = false := by
        cases hc : firesT (some ta) .logs
        · rfl
        · exact absurd (h .logs hc) (by simp [firesT])
      simp [e1, e2, e3, e4, e5]
    | some tb =>
      rw [scoreT_some ta, scoreT_some tb]
      have h1 := h .instr
      have h2 := h .signers
      have h3 := h .shift
      have h4 := h .err
      have h5 := h .logs
      have k1 : (if firesT (some ta) .instr then 2 else 0) ≤
          (if firesT (some tb) .instr then (2 : Nat) else 0) := by
        split_ifs with hx hy <;> first | omega | exact absurd (h1 hx) hy
      have k2 : (if firesT (some ta) .signers then 2 else 0) ≤
          (if firesT (some tb) .signers then (2 : Nat) else 0) := by
        split_ifs with hx hy <;> first | omega | exact absurd (h2 hx) hy
      have k3 : (if firesT (some ta) .shift then 3 else 0) ≤
          (if firesT (some tb) .shift then (3 : Nat) else 0) := by
        split_ifs with hx hy <;> first | omega | exact absurd (h3 hx) hy
      have k4 : (if firesT (some ta) .err then 3 else 0) ≤
          (if firesT (some tb) .err then (3 : Nat) else 0) := by
        split_ifs with hx hy <;> first | omega | exact absurd (h4 hx) hy
      have k5 : (if firesT (some ta) .logs then 2 else 0) ≤
          (if firesT (some tb) .logs then (2 : Nat) else 0) := by
        split_ifs with hx hy <;> first | omega | exact absurd (h5 hx) hy
      omega

lemma trustScoreVal_anti (s s' : Nat) (h : s ≤ s') : trustScoreVal s' ≤ trustScoreVal s := by
  simp only [trustScoreVal, TOTAL_RISK_SCORE]
  omega

lemma toScorePct_eq_val (s : Nat) : toScorePct s = toString (trustScoreVal s) := rfl

lemma audit_program_eq (c : Conn) (inp : String) :
    audit c "program" inp =
      { id := inp
        trustScore := toScorePct (auditProgram c).1
        riskLevel := getRiskLevel (auditProgram c).1
        riskDesc := getRiskDesc (auditProgram c).1
        warnings := (auditProgram c).2 } := by
  simp [audit]

lemma audit_transaction_eq (c : Conn) (inp : String) :
    audit c "transaction" inp =
      { id := inp
        trustScore := toScorePct (auditTransaction c).1
        riskLevel := getRiskLevel (auditTransaction c).1
        riskDesc := getRiskDesc (auditTransaction c).1
        warnings := (auditTransaction c).2 } := by
  simp [audit]

lemma audit_invalid (c : Conn) (ty inp : String)
    (h1 : ty ≠ "program") (h2 : ty ≠ "transaction") :
    audit c ty inp = invalidTypeResult inp := by
  simp [audit, h1, h2]

lemma auditProgram_acctFail (c : Conn) (e : String) (h : c.getAccountInfo = .error e) :
    auditProgram c = (10, ["Program not found"]) := by
  simp [auditProgram, getProgramInfo, h]

lemma auditProgram_acctNone (c : Conn) (h : c.getAccountInfo = .ok none) :
    auditProgram c = (10, ["Program not found"]) := by
  simp [auditProgram, getProgramInfo, h]

lemma auditTransaction_fail (c : Conn) (e : String) (h : c.getTransaction = .error e) :
    auditTransaction c = (10, ["Error processing transaction: " ++ e]) := by
  simp [auditTransaction, h]

lemma auditTransaction_none (c : Conn) (h : c.getTransaction = .ok none) :
    auditTransaction c = (10, ["Transaction not found"]) := by
  simp [auditTransaction, h]

lemma auditProgram_slotFail (c : Conn) (info : AccountInfo) (e : String)
    (h1 : c.getAccountInfo = .ok (some info)) (h2 : c.getSlot = .error e) :
    auditProgram c = (10,
      (if info.dataLength < 100 then ["Very small program size"] else []) ++
      (if !info.executable then ["Program is not executable"] else []) ++
      ["Error auditing program: " ++ e]) := by
  simp only [auditProgram, getProgramInfo, h1, h2]
  split_ifs <;> simp

lemma auditProgram_blockTimeFail (c : Conn) (info : AccountInfo) (e : String) (slot : Nat)
    (h1 : c.getAccountInfo = .ok (some info)) (h2 : c.getSlot = .ok slot)
    (h3 : c.getBlockTime slot = .error e) :
    auditProgram c = (10,
      (if info.dataLength < 100 then ["Very small program size"] else []) ++
      (if !info.executable then ["Program is not executable"] else []) ++
      ["Error auditing program: " ++ e]) := by
  simp only [auditProgram, getProgramInfo, h1, h2, h3]
  split_ifs <;> simp

lemma auditProgram_sigsFail (c : Conn) (info : AccountInfo) (e : String) (slot : Nat) (bt : Int)
    (h1 : c.getAccountInfo = .ok (some info)) (h2 : c.getSlot = .ok slot)
    (h3 : c.getBlockTime slot = .ok bt) (h4 : c.getSignaturesLen = .error e) :
    auditProgram c = (10,
      (if info.dataLength < 100 then ["Very small program size"] else []) ++
      (if !info.executable then ["Program is not executable"] else []) ++
      (if bt - info.rentEpoch < 86400 then ["Very recent program"] else []) ++
      ["Error auditing program: " ++ e]) := by
  simp only [auditProgram, getProgramInfo, h1, h2, h3, h4]
  split_ifs <;> simp

lemma auditProgram_balFail (c : Conn) (info : AccountInfo) (e : String) (slot : Nat) (bt : Int)
    (sc : Nat) (h1 : c.getAccountInfo = .ok (some info)) (h2 : c.getSlot = .ok slot)
    (h3 : c.getBlockTime slot = .ok bt) (h4 : c.getSignaturesLen = .ok sc)
    (h5 : c.getBalance = .error e) :
    auditProgram c = (10,
      (if info.dataLength < 100 then ["Very small program size"] else []) ++
      (if !info.executable then ["Program is not executable"] else []) ++
      (if bt - info.rentEpoch < 86400 then ["Very recent program"] else []) ++
      (if txFrequencyGt100 sc (bt - info.rentEpoch) then ["High transaction frequency"] else []) ++
      ["Error auditing program: " ++ e]) := by
  simp only [auditProgram, getProgramInfo, h1, h2, h3, h4, h5]
  split_ifs <;> simp

lemma filter_len_pos {α : Type} (p : α → Bool) (l : List α) :
    0 < (l.filter p).length ↔ ∃ x ∈ l, p x = true := by
  rw [List.length_pos_iff_ne_nil, Ne, List.filter_eq_nil_iff]
  push_neg
  simp

lemma auditTransaction_shift_count (t : TxRecord) :
    (auditTransaction (txConnOf (some t))).2.count "Transaction with large balance shifts" =
      (if txLargeShift t then 1 else 0) := by
  simp only [auditTransaction, txConnOf]
  split_ifs <;> decide

lemma log2N_eq (n : ℕ) : log2N n = Nat.log2 n := by
  suffices h : ∀ fuel m : ℕ, m ≤ fuel → log2Aux fuel m = Nat.log2 m from h n n le_rfl
  intro fuel
  induction fuel with
  | zero =>
    intro m hm
    have h0 : m = 0 := by omega
    subst h0
    unfold Nat.log2
    norm_num [log2Aux]
  | succ fuel ih =>
    intro m hm
    show (if 2 ≤ m then log2Aux fuel (m / 2) + 1 else 0) = Nat.log2 m
    unfold Nat.log2
    by_cases h2 : 2 ≤ m
    · rw [if_pos h2, if_pos (show m ≥ 2 from h2), ih (m / 2) (by omega)]
    · rw [if_neg h2, if_neg (show ¬ m ≥ 2 from h2)]

lemma log2N_le (n : ℕ) (hn : n ≠ 0) : 2 ^ log2N n ≤ n := by
  rw [log2N_eq]; exact Nat.log2_self_le hn

lemma lt_log2N (n : ℕ) : n < 2 ^ (log2N n + 1) := by
  rw [log2N_eq]; exact Nat.lt_log2_self

lemma rneNat_close (N D : ℕ) (hd : 0 < D) :
    |(rneNat N D : ℚ) - (N : ℚ) / D| ≤ 1 / 2 := by
  have hmod : D * (N / D) + N % D = N := Nat.div_add_mod N D
  have hrlt : N % D < D := Nat.mod_lt N hd
  have hDQ : (0 : ℚ) < (D : ℚ) := by exact_mod_cast hd
  have hNQ : (N : ℚ) = (D : ℚ) * ((N / D : ℕ) : ℚ) + ((N % D : ℕ) : ℚ) := by
    exact_mod_cast hmod.symm
  have key : (N : ℚ) / D = ((N / D : ℕ) : ℚ) + ((N % D : ℕ) : ℚ) / D := by
    rw [hNQ]
    field_simp
    ring
  have hr0 : (0 : ℚ) ≤ ((N % D : ℕ) : ℚ) / D := by positivity
  have hr1 : ((N % D : ℕ) : ℚ) / D < 1 := by
    rw [div_lt_one hDQ]
    exact_mod_cast hrlt
  simp only [rneNat]
  split_ifs with h1 h2 h3
  · have hlt : ((N % D : ℕ) : ℚ) / D < 1 / 2 := by
      rw [div_lt_div_iff hDQ (by norm_num : (0:ℚ) < 2)]
      have : ((2 * (N % D) : ℕ) : ℚ) < (D : ℚ) := by exact_mod_cast h1
      push_cast at this ⊢
      linarith
    have e : ((N / D : ℕ) : ℚ) - (N : ℚ) / D = -(((N % D : ℕ) : ℚ) / D) := by
      rw [key]; ring
    rw [e, abs_neg, abs_of_nonneg hr0]
    linarith
  · have hgt : 1 / 2 < ((N % D : ℕ) : ℚ) / D := by
      rw [div_lt_div_iff (by norm_num : (0:ℚ) < 2) hDQ]
      have : (D : ℚ) < ((2 * (N % D) : ℕ) : ℚ) := by exact_mod_cast h2
      push_cast at this ⊢
      linarith
    have e : ((N / D + 1 : ℕ) : ℚ) - (N : ℚ) / D = 1 - ((N % D : ℕ) : ℚ) / D := by
      push_cast
      rw [key]; ring
    rw [e, abs_of_nonneg (by linarith)]
    linarith
  · have heq : ((N % D : ℕ) : ℚ) / D = 1 / 2 := by
      have h2D : 2 * (N % D) = D := by omega
      rw [div_eq_div_iff hDQ.ne' (by norm_num : (2:ℚ) ≠ 0)]
      have : ((2 * (N % D) : ℕ) : ℚ) = (D : ℚ) := by exact_mod_cast h2D
      push_cast at this ⊢
      linarith
    have e : ((N / D : ℕ) : ℚ) - (N : ℚ) / D = -(1 / 2 : ℚ) := by
      rw [key, heq]; ring
    rw [e, abs_neg, abs_of_nonneg (by norm_num : (0:ℚ) ≤ 1/2)]
  · have heq : ((N % D : ℕ) : ℚ) / D = 1 / 2 := by
      have h2D : 2 * (N % D) = D := by omega
      rw [div_eq_div_iff hDQ.ne' (by norm_num : (2:ℚ) ≠ 0)]
      have : ((2 * (N % D) : ℕ) : ℚ) = (D : ℚ) := by exact_mod_cast h2D
      push_cast at this ⊢
      linarith
    have e : ((N / D + 1 : ℕ) : ℚ) - (N : ℚ) / D = 1 / 2 := by
      push_cast
      rw [key, heq]; ring
    rw [e, abs_of_nonneg (by norm_num : (0:ℚ) ≤ 1/2)]

lemma two_zpow_pos (k : ℤ) : (0 : ℚ) < 2 ^ k := zpow_pos (by norm_num) k

lemma two_zpow_mul (m n : ℤ) : (2 : ℚ) ^ m * 2 ^ n = 2 ^ (m + n) :=
  (zpow_add₀ (by norm_num : (2:ℚ) ≠ 0) m n).symm

lemma two_zpow_natCast (k : ℤ) (hk : 0 ≤ k) : (2 : ℚ) ^ k = ((2 ^ k.toNat : ℕ) : ℚ) := by
  rw [← Int.toNat_of_nonneg hk, zpow_natCast]
  push_cast
  rw [Int.toNat_of_nonneg hk]

lemma ilog2F_spec (n d : ℕ) (hn : 0 < n) (hd : 0 < d) :
    (2 : ℚ) ^ ilog2F n d ≤ (n : ℚ) / d ∧ (n : ℚ) / d < 2 ^ (ilog2F n d + 1) := by
  have hdQ : (0:ℚ) < (d:ℚ) := by exact_mod_cast hd
  have F1 : (2:ℚ) ^ ((log2N n : ℕ) : ℤ) ≤ n := by
    rw [zpow_natCast]; exact_mod_cast log2N_le n hn.ne'
  have F2 : (n:ℚ) < 2 ^ (((log2N n : ℕ) : ℤ) + 1) := by
    rw [show (((log2N n : ℕ) : ℤ) + 1) = ((log2N n + 1 : ℕ) : ℤ) by push_cast; ring,
      zpow_natCast]
    exact_mod_cast lt_log2N n
  have F3 : (2:ℚ) ^ ((log2N d : ℕ) : ℤ) ≤ d := by
    rw [zpow_natCast]; exact_mod_cast log2N_le d hd.ne'
  have F4 : (d:ℚ) < 2 ^ (((log2N d : ℕ) : ℤ) + 1) := by
    rw [show (((log2N d : ℕ) : ℤ) + 1) = ((log2N d + 1 : ℕ) : ℤ) by push_cast; ring,
      zpow_natCast]
    exact_mod_cast lt_log2N d
  simp only [ilog2F]
  set a : ℤ := ((log2N n : ℕ) : ℤ) with ha
  set b : ℤ := ((log2N d : ℕ) : ℤ) with hb
  have low : (2:ℚ) ^ (a - b - 1) < (n:ℚ)/d := by
    rw [lt_div_iff₀ hdQ]
    calc (2:ℚ) ^ (a - b - 1) * d
        < 2 ^ (a - b - 1) * 2 ^ (b + 1) := mul_lt_mul_of_pos_left F4 (two_zpow_pos _)
      _ = 2 ^ a := by rw [two_zpow_mul]; congr 1; ring
      _ ≤ n := F1
  have high : (n:ℚ)/d < 2 ^ (a - b + 1) := by
    rw [div_lt_iff₀ hdQ]
    calc (n:ℚ) < 2 ^ (a + 1) := F2
      _ = 2 ^ (a - b + 1) * 2 ^ b := by rw [two_zpow_mul]; congr 1; ring
      _ ≤ 2 ^ (a - b + 1) * d := mul_le_mul_of_nonneg_left F3 (two_zpow_pos _).le
  set cnd : Bool := (if 0 ≤ a - b then decide (n < d * 2 ^ (a - b).toNat)
    else decide (n * 2 ^ (-(a - b)).toNat < d)) with hcnd
  have belowIff : cnd = true ↔ (n:ℚ)/d < 2 ^ (a - b) := by
    rw [hcnd]
    split_ifs with hks
    · rw [decide_eq_true_eq, div_lt_iff₀ hdQ, two_zpow_natCast _ hks,
        mul_comm (((2 ^ (a - b).toNat : ℕ) : ℚ)) ((d : ℕ) : ℚ)]
      exact_mod_cast Iff.rfl
    · rw [decide_eq_true_eq, div_lt_iff₀ hdQ]
      have hks' : (0:ℤ) ≤ -(a - b) := by omega
      have hP : (2:ℚ) ^ (-(a - b)) = ((2 ^ (-(a - b)).toNat : ℕ) : ℚ) := two_zpow_natCast _ hks'
      have hcancel : (2:ℚ) ^ (-(a - b)) * 2 ^ (a - b) = 1 := by
        rw [two_zpow_mul]; norm_num
      constructor
      · intro h
        have hQ : (n : ℚ) * 2 ^ (-(a - b)) < d := by
          rw [hP]
          exact_mod_cast h
        calc (n:ℚ) = n * (2 ^ (-(a - b)) * 2 ^ (a - b)) := by rw [hcancel, mul_one]
          _ = n * 2 ^ (-(a - b)) * 2 ^ (a - b) := by ring
          _ < d * 2 ^ (a - b) := mul_lt_mul_of_pos_right hQ (two_zpow_pos _)
          _ = 2 ^ (a - b) * d := by ring
      · intro h
        have hQ : (n : ℚ) * 2 ^ (-(a - b)) < d := by
          have h3 := mul_lt_mul_of_pos_right h (two_zpow_pos (-(a - b)))
          calc (n:ℚ) * 2 ^ (-(a - b)) < 2 ^ (a - b) * d * 2 ^ (-(a - b)) := h3
            _ = d * (2 ^ (-(a - b)) * 2 ^ (a - b)) := by ring
            _ = d := by rw [hcancel, mul_one]
        rw [hP] at hQ
        exact_mod_cast hQ
  by_cases hbel : cnd = true
  · rw [if_pos hbel]
    have hlt : (n:ℚ)/d < 2 ^ (a - b) := belowIff.mp hbel
    refine ⟨low.le, ?_⟩
    rw [show a - b - 1 + 1 = a - b by ring]
    exact hlt
  · rw [if_neg hbel]
    have hge : ¬ ((n:ℚ)/d < 2 ^ (a - b)) := fun hc => hbel (belowIff.mpr hc)
    exact ⟨not_lt.mp hge, high⟩

lemma flDiv_err (n d : ℕ) (hn : 0 < n) (hd : 0 < d) :
    |dval (flDiv n d) - (n : ℚ) / d| ≤ ((n : ℚ) / d) / 2 ^ 50 ∧ 0 < (flDiv n d).1 := by
  obtain ⟨hel, heh⟩ := ilog2F_spec n d hn hd
  have hnQ : (0:ℚ) < (n:ℚ) := by exact_mod_cast hn
  have hdQ : (0:ℚ) < (d:ℚ) := by exact_mod_cast hd
  have hx : (0:ℚ) < (n:ℚ)/d := by positivity
  set e : ℤ := ilog2F n d with he
  have hm : |(((flDiv n d).1 : ℕ) : ℚ) - (n:ℚ)/d * 2 ^ ((52:ℤ) - e)| ≤ 1 / 2 := by
    show |(((if 0 ≤ 52 - e then rneNat (n * 2 ^ (52 - e).toNat) d
      else rneNat n (d * 2 ^ (e - 52).toNat) : ℕ)) : ℚ) - (n:ℚ)/d * 2 ^ ((52:ℤ) - e)| ≤ 1 / 2
    split_ifs with hc
    · have hval : ((n * 2 ^ (52 - e).toNat : ℕ) : ℚ) / d = (n:ℚ)/d * 2 ^ ((52:ℤ) - e) := by
        push_cast
        rw [show ((2:ℚ) ^ ((52 - e).toNat : ℕ)) = (2:ℚ) ^ ((52:ℤ) - e) by
          rw [← zpow_natCast, Int.toNat_of_nonneg hc]]
        ring
      rw [← hval]
      exact rneNat_close _ _ hd
    · have hc' : (0:ℤ) ≤ e - 52 := by omega
      have hDpos : 0 < d * 2 ^ (e - 52).toNat := by positivity
      have hval : ((n : ℕ) : ℚ) / ((d * 2 ^ (e - 52).toNat : ℕ) : ℚ)
          = (n:ℚ)/d * 2 ^ ((52:ℤ) - e) := by
        push_cast
        rw [show ((2:ℚ) ^ ((e - 52).toNat : ℕ)) = (2:ℚ) ^ ((e:ℤ) - 52) by
          rw [← zpow_natCast, Int.toNat_of_nonneg hc']]
        rw [div_mul_eq_div_div, div_eq_mul_inv ((n:ℚ)/d), ← zpow_neg]
        congr 1
        ring_nf
      rw [← hval]
      exact rneNat_close _ _ hDpos
  have h2e : (flDiv n d).2 = e := rfl
  have hprod : dval (flDiv n d) = (((flDiv n d).1 : ℕ) : ℚ) * 2 ^ (e - 52) := by
    simp only [dval, h2e]
  have hcancel : (2:ℚ) ^ ((52:ℤ) - e) * 2 ^ (e - 52) = 1 := by
    rw [two_zpow_mul]; norm_num
  have hdiff : dval (flDiv n d) - (n:ℚ)/d
      = ((((flDiv n d).1 : ℕ) : ℚ) - (n:ℚ)/d * 2 ^ ((52:ℤ) - e)) * 2 ^ (e - 52) := by
    rw [hprod, sub_mul, mul_assoc, hcancel, mul_one]
  have habs : |dval (flDiv n d) - (n:ℚ)/d| ≤ (1/2) * 2 ^ (e - 52) := by
    rw [hdiff, abs_mul, abs_of_pos (two_zpow_pos _)]
    exact mul_le_mul_of_nonneg_right hm (two_zpow_pos _).le
  have hbound : (1/2 : ℚ) * 2 ^ (e - 52) ≤ ((n:ℚ)/d) / 2 ^ 50 := by
    have h1 : (1/2 : ℚ) * 2 ^ (e - 52) = 2 ^ (e - 53) := by
      rw [show (1/2 : ℚ) = 2 ^ (-1 : ℤ) by norm_num, two_zpow_mul]
      congr 1
      ring
    have h2 : (2:ℚ) ^ (e - 53) ≤ 2 ^ (e - 50) := zpow_le_zpow_right₀ (by norm_num) (by omega)
    have h3 : (2:ℚ) ^ (e - 50) = 2 ^ e / 2 ^ (50:ℕ) := by
      rw [div_eq_mul_inv, show ((2:ℚ) ^ (50:ℕ))⁻¹ = (2:ℚ) ^ (-(50:ℤ)) by
        rw [← zpow_natCast, ← zpow_neg]
        norm_num, two_zpow_mul]
      congr 1
    have h4 : (2:ℚ) ^ e / 2 ^ (50:ℕ) ≤ ((n:ℚ)/d) / 2 ^ (50:ℕ) := by
      rw [div_eq_mul_inv, div_eq_mul_inv]
      exact mul_le_mul_of_nonneg_right hel (by positivity)
    calc (1/2 : ℚ) * 2 ^ (e - 52) = 2 ^ (e - 53) := h1
      _ ≤ 2 ^ (e - 50) := h2
      _ = 2 ^ e / 2 ^ (50:ℕ) := h3
      _ ≤ ((n:ℚ)/d) / 2 ^ (50:ℕ) := h4
  have hyge : (2:ℚ) ^ (52:ℤ) ≤ (n:ℚ)/d * 2 ^ ((52:ℤ) - e) := by
    calc (2:ℚ) ^ (52:ℤ) = 2 ^ e * 2 ^ ((52:ℤ) - e) := by
          rw [two_zpow_mul]; congr 1; ring
      _ ≤ (n:ℚ)/d * 2 ^ ((52:ℤ) - e) := mul_le_mul_of_nonneg_right hel (two_zpow_pos _).le
  have h52 : (4:ℚ) ≤ 2 ^ (52:ℤ) := by
    rw [show ((52:ℤ)) = ((52:ℕ):ℤ) by rfl, zpow_natCast]
    norm_num
  have hmpos : (0:ℚ) < (((flDiv n d).1 : ℕ) : ℚ) := by
    have hab := abs_le.mp hm
    linarith [hab.1, hab.2]
  exact ⟨habs.trans hbound, by exact_mod_cast hmpos⟩

lemma dyadicGtHundred_iff (m : ℕ) (s : ℤ) :
    dyadicGtHundred m s = true ↔ (100 : ℚ) < (m : ℚ) * 2 ^ s := by
  unfold dyadicGtHundred
  split_ifs with hs
  · rw [decide_eq_true_eq, two_zpow_natCast _ hs]
    constructor
    · intro h
      have h2 : ((100 : ℕ) : ℚ) < ((m * 2 ^ s.toNat : ℕ) : ℚ) := by exact_mod_cast h
      push_cast at h2
      push_cast
      linarith
    · intro h
      have h2 : ((100 : ℕ) : ℚ) < ((m * 2 ^ s.toNat : ℕ) : ℚ) := by push_cast at h ⊢; linarith
      exact_mod_cast h2
  · rw [decide_eq_true_eq]
    have hs' : (0:ℤ) ≤ -s := by omega
    have hP : (2:ℚ) ^ (-s) = ((2 ^ (-s).toNat : ℕ) : ℚ) := two_zpow_natCast _ hs'
    have hcancel : (2:ℚ) ^ (-s) * 2 ^ s = 1 := by rw [two_zpow_mul]; norm_num
    constructor
    · intro h
      have hQ : (100 : ℚ) * 2 ^ (-s) < m := by
        rw [hP]
        exact_mod_cast h
      calc (100:ℚ) = 100 * (2 ^ (-s) * 2 ^ s) := by rw [hcancel, mul_one]
        _ = 100 * 2 ^ (-s) * 2 ^ s := by ring
        _ < m * 2 ^ s := mul_lt_mul_of_pos_right hQ (two_zpow_pos _)
    · intro h
      have hQ : (100 : ℚ) * 2 ^ (-s) < m := by
        have h3 := mul_lt_mul_of_pos_right h (two_zpow_pos (-s))
        calc (100:ℚ) * 2 ^ (-s) < (m : ℚ) * 2 ^ s * 2 ^ (-s) := h3
          _ = m * (2 ^ (-s) * 2 ^ s) := by ring
          _ = m := by rw [hcancel, mul_one]
      rw [hP] at hQ
      exact_mod_cast hQ

/-- The two-rounding error window: if `q1` approximates `A/86400` and `v`
approximates `C/q1`, each to relative error `2⁻⁵⁰`, and `C ≤ 1000`, then
off the exact boundary the comparison of `v` with 100 agrees with the
exact comparison of `86400·C` with `100·A`. -/
lemma gt100_window (C A q1 v : ℚ) (hCpos : 0 < C) (hCcap : C ≤ 1000) (hApos : 0 < A)
    (hq1pos : 0 < q1)
    (hq1er : |q1 - A / 86400| ≤ (A / 86400) / 1125899906842624)
    (hver : |v - C / q1| ≤ (C / q1) / 1125899906842624) :
    (100 * A + 1 ≤ 86400 * C → 100 < v) ∧ (86400 * C + 1 ≤ 100 * A → v ≤ 100) := by
  obtain ⟨h1l, h1u⟩ := abs_le.mp hq1er
  obtain ⟨h2l, h2u⟩ := abs_le.mp hver
  have hwpos : (0:ℚ) < C / q1 := by positivity
  constructor
  · intro hge
    have hAbound : A ≤ 864000 := by linarith
    have hkey : 100 * q1 < C * (1 - 1/1125899906842624) := by linarith
    have hlt : 100 < C * (1 - 1/1125899906842624) / q1 := by
      rw [lt_div_iff₀ hq1pos]
      linarith
    have heq : C * (1 - 1/1125899906842624) / q1 = C / q1 - (C / q1) / 1125899906842624 := by
      ring
    rw [heq] at hlt
    linarith
  · intro hle
    have hkey : C * (1 + 1/1125899906842624) ≤ 100 * q1 := by
      by_cases hA12 : A ≤ 1000000000000
      · linarith
      · linarith
    have hlt : C * (1 + 1/1125899906842624) / q1 ≤ 100 := by
      rw [div_le_iff₀ hq1pos]
      linarith
    have heq : C * (1 + 1/1125899906842624) / q1 = C / q1 + (C / q1) / 1125899906842624 := by
      ring
    rw [heq] at hlt
    linarith

lemma jsFreqGt100_iff (count : ℕ) (age : ℤ) (hpos : 0 < age) (hcap : count ≤ 1000)
    (hnb : (count : ℤ) * 86400 ≠ 100 * age) :
    txFrequencyGt100 count age = true ↔ 100 * age < (count : ℤ) * 86400 := by
  rcases Nat.eq_zero_or_pos count with hc0 | hcpos
  · subst hc0
    simp only [txFrequencyGt100, if_pos hpos, if_pos rfl]
    constructor
    · intro h
      exact absurd h (by simp)
    · intro h
      exfalso
      omega
  · set An : ℕ := age.toNat with hAn
    have hAge : ((An : ℕ) : ℤ) = age := Int.toNat_of_nonneg hpos.le
    have hAnpos : 0 < An := by omega
    have hform : txFrequencyGt100 count age =
        dyadicGtHundred (flDiv count (flDiv An 86400).1).1
          ((flDiv count (flDiv An 86400).1).2 - (flDiv An 86400).2) := by
      simp only [txFrequencyGt100, if_pos hpos]
      rw [if_neg (by omega : ¬ count = 0)]
    obtain ⟨E1, hm1pos⟩ := flDiv_err An 86400 hAnpos (by norm_num)
    obtain ⟨E2, hm2pos⟩ := flDiv_err count (flDiv An 86400).1 hcpos hm1pos
    simp only [dval] at E1 E2
    set m1 : ℕ := (flDiv An 86400).1 with hm1
    set e1 : ℤ := (flDiv An 86400).2 with he1
    set m2 : ℕ := (flDiv count m1).1 with hm2
    set e2 : ℤ := (flDiv count m1).2 with he2
    set A : ℚ := ((An : ℕ) : ℚ) with hA
    set C : ℚ := ((count : ℕ) : ℚ) with hC
    have hApos : (0:ℚ) < A := by rw [hA]; exact_mod_cast hAnpos
    have hCpos : (0:ℚ) < C := by rw [hC]; exact_mod_cast hcpos
    have hCcap : C ≤ 1000 := by rw [hC]; exact_mod_cast hcap
    have hm1Q : (0:ℚ) < (m1 : ℚ) := by exact_mod_cast hm1pos
    set q1 : ℚ := (m1 : ℚ) * 2 ^ (e1 - 52) with hq1
    have hq1pos : (0:ℚ) < q1 := by
      rw [hq1]; exact mul_pos hm1Q (two_zpow_pos _)
    set v : ℚ := (m2 : ℚ) * 2 ^ (e2 - e1) with hv
    have hveq : v = ((m2 : ℚ) * 2 ^ (e2 - 52)) * 2 ^ ((52:ℤ) - e1) := by
      rw [hv, mul_assoc, two_zpow_mul]
      congr 2
      ring
    have hweq : C / q1 = (C / (m1 : ℚ)) * 2 ^ ((52:ℤ) - e1) := by
      rw [hq1, div_mul_eq_div_div, div_eq_mul_inv (C / (m1:ℚ)), ← zpow_neg]
      congr 2
      ring
    have herr : |v - C / q1| ≤ (C / q1) / 2 ^ 50 := by
      rw [hveq, hweq, ← sub_mul, abs_mul, abs_of_pos (two_zpow_pos _)]
      calc |(m2 : ℚ) * 2 ^ (e2 - 52) - C / (m1:ℚ)| * 2 ^ ((52:ℤ) - e1)
          ≤ ((C / (m1:ℚ)) / 2 ^ 50) * 2 ^ ((52:ℤ) - e1) :=
            mul_le_mul_of_nonneg_right E2 (two_zpow_pos _).le
        _ = ((C / (m1:ℚ)) * 2 ^ ((52:ℤ) - e1)) / 2 ^ 50 := by ring
    have hgt : (txFrequencyGt100 count age = true) ↔ (100:ℚ) < v := by
      rw [hform, dyadicGtHundred_iff]
    have h50 : ((2:ℚ) ^ (50 : ℕ)) = 1125899906842624 := by norm_num
    have hE1 : |q1 - A / 86400| ≤ (A / 86400) / 1125899906842624 := by
      rw [← h50]
      push_cast at E1
      exact E1
    have hE2 : |v - C / q1| ≤ (C / q1) / 1125899906842624 := by
      rw [← h50]
      exact herr
    have hwin := gt100_window C A q1 v hCpos hCcap hApos hq1pos hE1 hE2
    constructor
    · intro hfire
      have hv100 : (100:ℚ) < v := hgt.mp hfire
      by_contra hnot
      have hleQ : 86400 * C + 1 ≤ 100 * A := by
        rw [hC, hA]
        exact_mod_cast (by omega : 86400 * (count : ℤ) + 1 ≤ 100 * (An:ℤ))
      have := hwin.2 hleQ
      linarith
    · intro hint
      have hgeQ : 100 * A + 1 ≤ 86400 * C := by
        rw [hC, hA]
        exact_mod_cast (by omega : 100 * (An:ℤ) + 1 ≤ 86400 * (count : ℤ))
      exact hgt.mpr (hwin.1 hgeQ)

/-- C1: the score translator has no clamp.  A found transaction firing all
five non-short-circuit rules (weights 2+2+3+3+2) accumulates cumulative
risk score 12, and the audit result's `trustScore` is the negative string
"-20" — not floored at 0 as the claim states. -/
theorem C1_no_clamp_negative_trustScore :
    (auditTransaction (txConnOf (some txAll))).1 = 12 ∧
    toScorePct 12 = "-20" ∧
    (audit (txConnOf (some txAll)) "transaction" "sig").trustScore = "-20" := by
  refine ⟨by decide, by decide, by decide⟩

/-- C2 counterexample: when the account fetch itself fails (the call
rejects with "network down"), `getProgramInfo` swallows the failure and
returns `null`, so the audit reports only the not-found warning — no
warning mentioning the failure. -/
theorem C2_cex_account_fetch_failure :
    failConn.getAccountInfo = Except.error "network down" ∧
    audit failConn "program" "pid" =
      { id := "pid"
        trustScore := "0"
        riskLevel := "High Risk"
        riskDesc := "Careful review strongly recommended."
        warnings := ["Program not found"] } := by
  refine ⟨rfl, by decide⟩

/-- C2 amended: an evidence-collection failure in any collaborator call
after the account fetch (`getSlot`, `getBlockTime`,
`getSignaturesForAddress`, `getBalance`) or in `getTransaction` is caught,
forces the cumulative score to exactly 10, appends a warning describing
that failure, and the audit completes with riskLevel "High Risk" and
trustScore "0"; but a failure of the account fetch itself is converted to
`null` by `getProgramInfo` and yields only the "Program not found"
warning. -/
theorem C2_failure_escalation (c : Conn) (e inp : String) (info : AccountInfo)
    (slot : Nat) (bt : Int) (sc : Nat) :
    (c.getAccountInfo = .error e →
      audit c "program" inp =
        { id := inp, trustScore := "0", riskLevel := "High Risk"
          riskDesc := "Careful review strongly recommended."
          warnings := ["Program not found"] }) ∧
    (c.getAccountInfo = .ok (some info) → c.getSlot = .error e →
      audit c "program" inp =
        { id := inp, trustScore := "0", riskLevel := "High Risk"
          riskDesc := "Careful review strongly recommended."
          warnings :=
            (if info.dataLength < 100 then ["Very small program size"] else []) ++
            (if !info.executable then ["Program is not executable"] else []) ++
            ["Error auditing program: " ++ e] }) ∧
    (c.getAccountInfo = .ok (some info) → c.getSlot = .ok slot →
      c.getBlockTime slot = .error e →
      audit c "program" inp =
        { id := inp, trustScore := "0", riskLevel := "High Risk"
          riskDesc := "Careful review strongly recommended."
          warnings :=
            (if info.dataLength < 100 then ["Very small program size"] else []) ++
            (if !info.executable then ["Program is not executable"] else []) ++
            ["Error auditing program: " ++ e] }) ∧
    (c.getAccountInfo = .ok (some info) → c.getSlot = .ok slot →
      c.getBlockTime slot = .ok bt → c.getSignaturesLen = .error e →
      audit c "program" inp =
        { id := inp, trustScore := "0", riskLevel := "High Risk"
          riskDesc := "Careful review strongly recommended."
          warnings :=
            (if info.dataLength < 100 then ["Very small program size"] else []) ++
            (if !info.executable then ["Program is not executable"] else []) ++
            (if bt - info.rentEpoch < 86400 then ["Very recent program"] else []) ++
            ["Error auditing program: " ++ e] }) ∧
    (c.getAccountInfo = .ok (some info) → c.getSlot = .ok slot →
      c.getBlockTime slot = .ok bt → c.getSignaturesLen = .ok sc →
      c.getBalance = .error e →
      audit c "program" inp =
        { id := inp, trustScore := "0", riskLevel := "High Risk"
          riskDesc := "Careful review strongly recommended."
          warnings :=
            (if info.dataLength < 100 then ["Very small program size"] else []) ++
            (if !info.executable then ["Program is not executable"] else []) ++
            (if bt - info.rentEpoch < 86400 then ["Very recent program"] else []) ++
            (if txFrequencyGt100 sc (bt - info.rentEpoch) then
              ["High transaction frequency"] else []) ++
            ["Error auditing program: " ++ e] }) ∧
    (c.getTransaction = .error e →
      audit c "transaction" inp =
        { id := inp, trustScore := "0", riskLevel := "High Risk"
          riskDesc := "Careful review strongly recommended."
          warnings := ["Error processing transaction: " ++ e] }) := by
  refine ⟨?_, ?_, ?_, ?_, ?_, ?_⟩
  · intro h
    rw [audit_program_eq, auditProgram_acctFail c e h]
    rfl
  · intro h1 h2
    rw [audit_program_eq, auditProgram_slotFail c info e h1 h2]
    rfl
  · intro h1 h2 h3
    rw [audit_program_eq, auditProgram_blockTimeFail c info e slot h1 h2 h3]
    rfl
  · intro h1 h2 h3 h4
    rw [audit_program_eq, auditProgram_sigsFail c info e slot bt h1 h2 h3 h4]
    rfl
  · intro h1 h2 h3 h4 h5
    rw [audit_program_eq, auditProgram_balFail c info e slot bt sc h1 h2 h3 h4 h5]
    rfl
  · intro h
    rw [audit_transaction_eq, auditTransaction_fail c e h]
    rfl

/-- C2 witness: the escalation branch evaluated at the concrete connection
whose `getSlot` rejects with "clock unavailable". -/
theorem C2_failure_escalation_witness :
    audit clockFailConn "program" "pid" =
      { id := "pid"
        trustScore := "0"
        riskLevel := "High Risk"
        riskDesc := "Careful review strongly recommended."
        warnings := ["Error auditing program: clock unavailable"] } := by
  have h := (C2_failure_escalation clockFailConn "clock unavailable" "pid" okInfo 0 0 0).2.1
    rfl rfl
  simpa [okInfo] using h

/-- C3 counterexample: an unrecognised subject type is not surfaced as a
distinct error — `audit` returns the same degraded High-Risk
`AuditResult` record used for internal failures. -/
theorem C3_cex_invalid_type_escalated :
    audit (txConnOf none) "nft" "abc" =
      { id := "abc"
        trustScore := "0"
        riskLevel := "High Risk"
        riskDesc := "Error occurred during audit"
        warnings := ["Audit failed: Invalid audit type. Use \"program\" or \"transaction\"."] } := by
  decide

/-- C3 amended: a subject type other than "program" or "transaction" is
rejected before any evidence fetch (the result does not depend on the
connection at all), but the thrown `InvalidSubjectType` error is caught by
`audit`'s own catch clause and converted into the degraded High-Risk
`AuditResult`, distinguishable only by its `riskDesc` and warning text. -/
theorem C3_invalid_type_caught (c c' : Conn) (ty inp : String)
    (h1 : ty ≠ "program") (h2 : ty ≠ "transaction") :
    audit c ty inp = invalidTypeResult inp ∧ audit c ty inp = audit c' ty inp := by
  rw [audit_invalid c ty inp h1 h2, audit_invalid c' ty inp h1 h2]
  exact ⟨rfl, rfl⟩

/-- C3 witness: the invalid type "nft" on two different connections. -/
theorem C3_invalid_type_caught_witness :
    audit (txConnOf none) "nft" "x" = invalidTypeResult "x" ∧
    audit (txConnOf none) "nft" "x" = audit failConn "nft" "x" :=
  C3_invalid_type_caught (txConnOf none) failConn "nft" "x" (by decide) (by decide)

/-- C4 counterexample: with the clock source down, the program audit does
not skip the age rule and continue — it escalates to score 10 with only
the failure warning; the same evidence with a working clock scores 2 and
reports the balance warning, which is absent under clock failure, so the
remaining rules were not evaluated. -/
theorem C4_cex_clock_failure_escalates :
    auditProgram clockFailConn = (10, ["Error auditing program: clock unavailable"]) ∧
    auditProgram clockOkConn = (2, ["Very high program balance"]) := by
  refine ⟨by decide, by decide⟩

/-- C4 amended: if `getSlot` or `getBlockTime` rejects during a program
audit, the exception reaches `auditProgram`'s catch clause: the cumulative
score is forced to 10, a warning describing the failure is appended after
the warnings already collected, and the remaining rules (age, frequency,
balance) are not evaluated — escalation, not local recovery. -/
theorem C4_clock_failure_escalates (c : Conn) (info : AccountInfo) (e : String) (slot : Nat)
    (h1 : c.getAccountInfo = .ok (some info)) :
    (c.getSlot = .error e →
      auditProgram c = (10,
        (if info.dataLength < 100 then ["Very small program size"] else []) ++
        (if !info.executable then ["Program is not executable"] else []) ++
        ["Error auditing program: " ++ e])) ∧
    (c.getSlot = .ok slot → c.getBlockTime slot = .error e →
      auditProgram c = (10,
        (if info.dataLength < 100 then ["Very small program size"] else []) ++
        (if !info.executable then ["Program is not executable"] else []) ++
        ["Error auditing program: " ++ e])) := by
  exact ⟨fun h2 => auditProgram_slotFail c info e h1 h2,
    fun h2 h3 => auditProgram_blockTimeFail c info e slot h1 h2 h3⟩

/-- C4 witness: the amended statement at the concrete clock-failure
connection. -/
theorem C4_clock_failure_escalates_witness :
    auditProgram clockFailConn = (10, ["Error auditing program: clock unavailable"]) := by
  have h := (C4_clock_failure_escalates clockFailConn okInfo "clock unavailable" 0 rfl).1 rfl
  simpa [okInfo] using h

/-- C5: existence short-circuit.  A program bundle whose account lookup
returns `null` (or a transaction lookup returning `null`) yields cumulative
score exactly 10 and exactly the single not-found warning, whatever the
rest of the evidence — no other rule runs or contributes. -/
theorem C5_not_found_short_circuit (c : Conn) :
    (c.getAccountInfo = .ok none → auditProgram c = (10, ["Program not found"])) ∧
    (c.getTransaction = .ok none → auditTransaction c = (10, ["Transaction not found"])) :=
  ⟨auditProgram_acctNone c, auditTransaction_none c⟩

/-- C5 witness: concrete not-found program and transaction lookups. -/
theorem C5_not_found_short_circuit_witness :
    auditProgram (txConnOf none) = (10, ["Program not found"]) ∧
    auditTransaction (ProgramEvidence.toConn ev1) = (10, ["Transaction not found"]) :=
  ⟨(C5_not_found_short_circuit (txConnOf none)).1 rfl,
   (C5_not_found_short_circuit (ProgramEvidence.toConn ev1)).2 rfl⟩

/-- C6 counterexample: the code has no epsilon guard.  For 1000 recent
signatures and derived age −86400 s (age_in_days −1) the spec's guarded
quotient `1000 / max(−1, ε)` is 10¹² > 100, so per the claim the rule
fires; the code's unguarded rule does not fire, and the full audit of that
evidence emits no "High transaction frequency" warning. -/
theorem C6_cex_no_epsilon_guard :
    txFrequencyGt100 1000 (-86400) = false ∧
    (100 : ℚ) < txFrequencySpecGuarded 1000 (-86400) ∧
    auditProgram negAgeConn = (2, ["Very recent program"]) := by
  refine ⟨rfl, ?_, by decide⟩
  have hmax : max ((-86400 : ℚ) / 86400) (1 / 1000000000) = 1 / 1000000000 := by
    rw [max_eq_right]
    norm_num
  unfold txFrequencySpecGuarded
  push_cast
  rw [hmax]
  norm_num

/-- C6 amended: the transaction-frequency rule divides by the raw
`age_in_days` with no epsilon guard, computing in IEEE doubles.  For
positive derived age off the exact-quotient-100 boundary, under the
source's 1000-signature cap, it fires exactly when the exact quotient
`count / (age/86400)` exceeds 100 — equivalently `100·age < count·86400`
(the second conjunct is that bridge); at exact-boundary points the double
rounding decides: the rule fires at count 57, age 49248 although the
exact quotient is exactly 100, and does not fire at count 1000,
age 864000; at zero age the JS quotient is `Infinity`/`NaN` and the rule
fires exactly when the count is positive; for negative age the quotient
is non-positive and the rule never fires. -/
theorem C6_unguarded_frequency (count : Nat) (age : Int) :
    (0 < age → count ≤ 1000 → (count : Int) * 86400 ≠ 100 * age →
      (txFrequencyGt100 count age = true ↔ 100 * age < (count : Int) * 86400)) ∧
    (0 < age →
      ((100 : ℚ) < (count : ℚ) / ((age : ℚ) / 86400) ↔ 100 * age < (count : Int) * 86400)) ∧
    (age = 0 → txFrequencyGt100 count age = decide (0 < count)) ∧
    (age < 0 → txFrequencyGt100 count age = false) ∧
    (txFrequencyGt100 57 49248 = true ∧ (57 : Int) * 86400 = 100 * 49248) ∧
    (txFrequencyGt100 1000 864000 = false ∧ (1000 : Int) * 86400 = 100 * 864000) := by
  refine ⟨fun hpos hcap hnb => jsFreqGt100_iff count age hpos hcap hnb, ?_, ?_, ?_,
    by decide, by decide⟩
  · intro hpos
    have hb : (0 : ℚ) < (age : ℚ) / 86400 := by
      have : (0 : ℚ) < (age : ℚ) := by exact_mod_cast hpos
      positivity
    rw [lt_div_iff₀ hb, ← mul_div_assoc, div_lt_iff₀ (by norm_num : (0 : ℚ) < 86400)]
    constructor <;> intro h <;> exact_mod_cast h
  · intro h0
    simp [txFrequencyGt100, h0]
  · intro hneg
    have h1 : ¬ (0 : ℤ) < age := by omega
    have h2 : age ≠ 0 := by omega
    simp [txFrequencyGt100, h1, h2]

/-- C6 witness: a near-boundary positive-age case (exact quotient
100.0000116), resolved through the off-boundary equivalence. -/
theorem C6_unguarded_frequency_witness :
    txFrequencyGt100 1000 863999 = true :=
  ((C6_unguarded_frequency 1000 863999).1 (by decide) (by decide) (by decide)).mpr (by decide)

/-- C7: risk tiers are first-match-wins from the top: score above 7 is
High Risk, above 4 up to 7 Moderate, above 2 up to 4 Low, at most 2 Very
Low; in particular 7 is not High Risk and 8 is. -/
theorem C7_tier_thresholds (s : Nat) :
    (7 < s → getRiskLevel s = "High Risk") ∧
    (4 < s → s ≤ 7 → getRiskLevel s = "Moderate Risk") ∧
    (2 < s → s ≤ 4 → getRiskLevel s = "Low Risk") ∧
    (s ≤ 2 → getRiskLevel s = "Very Low Risk") ∧
    getRiskLevel 7 ≠ "High Risk" ∧ getRiskLevel 8 = "High Risk" := by
  refine ⟨?_, ?_, ?_, ?_, by decide, by decide⟩ <;>
    · intros
      simp only [getRiskLevel]
      split_ifs <;> first | rfl | omega

/-- C7 witness: the thresholds at the boundary scores. -/
theorem C7_tier_thresholds_witness :
    getRiskLevel 8 = "High Risk" ∧ getRiskLevel 7 = "Moderate Risk" ∧
    getRiskLevel 4 = "Low Risk" ∧ getRiskLevel 2 = "Very Low Risk" :=
  ⟨(C7_tier_thresholds 8).1 (by decide),
   (C7_tier_thresholds 7).2.1 (by decide) (by decide),
   (C7_tier_thresholds 4).2.2.1 (by decide) (by decide),
   (C7_tier_thresholds 2).2.2.2.1 (by decide)⟩

/-- C8 counterexample: on the catch path (reached by an invalid subject
type) the result names the High Risk tier but carries the fixed error
sentence, not that tier's description. -/
theorem C8_cex_error_riskDesc :
    (audit (txConnOf none) "bogus" "x").riskLevel = "High Risk" ∧
    getRiskLevel 10 = "High Risk" ∧
    (audit (txConnOf none) "bogus" "x").riskDesc ≠ getRiskDesc 10 := by
  refine ⟨by decide, by decide, by decide⟩

/-- C8 amended: the translator is a pure function of the cumulative score
(identical scores give identical trustScore/riskLevel/riskDesc), and on
the program and transaction paths the result's three fields are the
translator applied to one common score; only the catch path (reached by an
invalid subject type) carries the fixed sentence "Error occurred during
audit" instead of the High-Risk tier description. -/
theorem C8_translator_consistency (c c' : Conn) (ty inp inp' : String) :
    ((auditProgram c).1 = (auditProgram c').1 →
      (audit c "program" inp).trustScore = (audit c' "program" inp').trustScore ∧
      (audit c "program" inp).riskLevel = (audit c' "program" inp').riskLevel ∧
      (audit c "program" inp).riskDesc = (audit c' "program" inp').riskDesc) ∧
    (ty = "program" ∨ ty = "transaction" →
      ∃ s, (audit c ty inp).trustScore = toScorePct s ∧
        (audit c ty inp).riskLevel = getRiskLevel s ∧
        (audit c ty inp).riskDesc = getRiskDesc s) ∧
    (ty ≠ "program" → ty ≠ "transaction" →
      (audit c ty inp).riskDesc = "Error occurred during audit" ∧
      (audit c ty inp).riskLevel = "High Risk" ∧
      "Error occurred during audit" ≠ getRiskDesc 10) := by
  refine ⟨?_, ?_, ?_⟩
  · intro h
    rw [audit_program_eq c inp, audit_program_eq c' inp', h]
    exact ⟨rfl, rfl, rfl⟩
  · rintro (rfl | rfl)
    · exact ⟨(auditProgram c).1, by rw [audit_program_eq]; exact ⟨rfl, rfl, rfl⟩⟩
    · exact ⟨(auditTransaction c).1, by rw [audit_transaction_eq]; exact ⟨rfl, rfl, rfl⟩⟩
  · intro h1 h2
    rw [audit_invalid c ty inp h1 h2]
    exact ⟨rfl, rfl, by decide⟩

/-- C8 witness: the consistency conjunct at a concrete transaction
audit. -/
theorem C8_translator_consistency_witness :
    ∃ s, (audit (txConnOf none) "transaction" "x").trustScore = toScorePct s ∧
      (audit (txConnOf none) "transaction" "x").riskLevel = getRiskLevel s ∧
      (audit (txConnOf none) "transaction" "x").riskDesc = getRiskDesc s :=
  (C8_translator_consistency (txConnOf none) (txConnOf none) "transaction" "x" "x").2.1
    (Or.inr rfl)

/-- C9: monotonicity of trust.  If every rule firing for bundle A also
fires for bundle B (same subject type), the numeric trust value of B is at
most that of A; `trustScore` is the decimal rendering of that value. -/
theorem C9_monotonicity (A B : ProgramEvidence) (a b : Option TxRecord)
    (hP : ∀ r, firesP A r = true → firesP B r = true)
    (hT : ∀ r, firesT a r = true → firesT b r = true) :
    trustScoreVal (scoreP B) ≤ trustScoreVal (scoreP A) ∧
    trustScoreVal (scoreT b) ≤ trustScoreVal (scoreT a) ∧
    toScorePct (scoreP A) = toString (trustScoreVal (scoreP A)) ∧
    toScorePct (scoreT a) = toString (trustScoreVal (scoreT a)) :=
  ⟨trustScoreVal_anti _ _ (scoreP_mono A B hP),
   trustScoreVal_anti _ _ (scoreT_mono a b hT), rfl, rfl⟩

/-- C9 witness: `evB` fires a superset of `ev1`'s rules, `txAll` a
superset of `txQuiet`'s. -/
theorem C9_monotonicity_witness :
    trustScoreVal (scoreP evB) ≤ trustScoreVal (scoreP ev1) ∧
    trustScoreVal (scoreT (some txAll)) ≤ trustScoreVal (scoreT (some txQuiet)) ∧
    toScorePct (scoreP ev1) = toString (trustScoreVal (scoreP ev1)) ∧
    toScorePct (scoreT (some txQuiet)) = toString (trustScoreVal (scoreT (some txQuiet))) :=
  C9_monotonicity ev1 evB (some txQuiet) (some txAll)
    (by intro r hr; revert hr; cases r <;> decide)
    (by intro r hr; revert hr; cases r <;> decide)

/-- C10: the balance-shift rule is total for balance lists of any lengths:
it fires exactly when some index of `postBalances` has an absolute delta
above 100·10⁹ against the corresponding `preBalances` entry, a missing
entry counting as 0; when it fires it contributes weight 3 and exactly one
warning. -/
theorem C10_balance_shift_total (t : TxRecord) (m : TxMeta) (pre post : List Int)
    (h1 : t.meta = some m) (h2 : m.preBalances = some pre) (h3 : m.postBalances = some post) :
    (balanceShiftFires post pre = true ↔
      ∃ i, ∃ hi : i < post.length,
        100000000000 < (post.get ⟨i, hi⟩ -
          (if hp : i < pre.length then pre.get ⟨i, hp⟩ else 0)).natAbs) ∧
    scoreT (some t) =
      (if firesT (some t) .instr then 2 else 0) + (if firesT (some t) .signers then 2 else 0) +
      (if balanceShiftFires post pre then 3 else 0) + (if firesT (some t) .err then 3 else 0) +
      (if firesT (some t) .logs then 2 else 0) ∧
    (auditTransaction (txConnOf (some t))).2.count "Transaction with large balance shifts" =
      (if balanceShiftFires post pre then 1 else 0) := by
  have hshift : firesT (some t) TRule.shift = balanceShiftFires post pre := by
    simp [firesT, txLargeShift, h1, h2, h3]
  have key : ∀ i (hi : i < post.length),
      post.getD i 0 - pre.getD i 0 =
        post.get ⟨i, hi⟩ - (if hp : i < pre.length then pre.get ⟨i, hp⟩ else 0) := by
    intro i hi
    rw [List.getD_eq_get post 0 hi]
    by_cases hp : i < pre.length
    · rw [dif_pos hp, List.getD_eq_get pre 0 hp]
    · rw [dif_neg hp, List.getD_eq_default pre 0 (le_of_not_lt hp)]
  refine ⟨?_, ?_, ?_⟩
  · unfold balanceShiftFires
    rw [decide_eq_true_eq, filter_len_pos]
    unfold balanceChanges
    constructor
    · rintro ⟨x, hx, hpx⟩
      rw [List.mem_map] at hx
      obtain ⟨i, hir, rfl⟩ := hx
      rw [List.mem_range] at hir
      rw [decide_eq_true_eq, key i hir] at hpx
      exact ⟨i, hir, hpx⟩
    · rintro ⟨i, hi, hlt⟩
      refine ⟨post.getD i 0 - pre.getD i 0, ?_, ?_⟩
      · rw [List.mem_map]
        exact ⟨i, List.mem_range.mpr hi, rfl⟩
      · rw [decide_eq_true_eq, key i hi]
        exact hlt
  · rw [scoreT_some, hshift]
  · rw [auditTransaction_shift_count t]
    have hls : txLargeShift t = balanceShiftFires post pre := by
      simp [txLargeShift, h1, h2, h3]
    rw [hls]

/-- C10 witness: post has two entries, pre only one; the rule evaluates
without error, fires on the first delta, and alone contributes score 3. -/
theorem C10_balance_shift_total_witness :
    balanceShiftFires [200000000000, 5] [0] = true ∧ scoreT (some txShift) = 3 := by
  have h := C10_balance_shift_total txShift
    { preBalances := some [0], postBalances := some [200000000000, 5]
      err := false, logMessages := none }
    [0] [200000000000, 5] rfl rfl rfl
  refine ⟨?_, ?_⟩
  · exact h.1.mpr ⟨0, by decide, by decide⟩
  · rw [h.2.1]
    decide

end Rob3
